import Mathlib

/-!
Verification development for the vector-search service
(`src/services/vectorSearchService.ts`): a shallow embedding of the
embedding-generation pipeline, the index-strategy selection, the
dimension-reconciliation protocol and the result transformation, together
with theorems settling the specification claims.

Numeric values (JS `number`) are modelled as rationals `ℚ`; `Math.sqrt`
is modelled by `Rat.sqrt` (the claims proved here depend only on
sign/zero-ness of the values, which agree between the two).  Stateful
database interaction is modelled by explicit state passing plus an
oracle environment that decides which external calls succeed; `throw` /
`try..catch` is modelled with `Option String` error components.
-/

/-- Helper for JS `String.prototype.includes`: `isPrefixList pat l`
is true when `pat` is a prefix of `l`. -/
def isPrefixList : List Char → List Char → Bool
  | [], _ => true
  | _ :: _, [] => false
  | a :: as, b :: bs => a == b && isPrefixList as bs

/-- Helper: `isInfixList pat l` is true when `pat` occurs contiguously in `l`. -/
def isInfixList (pat : List Char) : List Char → Bool
  | [] => isPrefixList pat []
  | l@(_ :: rest) => isPrefixList pat l || isInfixList pat rest

/-- Model of JS `s.includes(sub)`: substring containment. -/
def stringIncludes (s sub : String) : Bool :=
  isInfixList sub.toList s.toList

/-- Model of JS `s.toLowerCase()` (ASCII case mapping, which is what the
model names involved use). -/
def toLowerCase (s : String) : String :=
  String.mk (s.data.map Char.toLower)

/-- Constant `EMBEDDING_DIMENSIONS_SMALL` from the source. -/
def EMBEDDING_DIMENSIONS_SMALL : Nat := 1536

/-- Constant `EMBEDDING_DIMENSIONS_LARGE` from the source. -/
def EMBEDDING_DIMENSIONS_LARGE : Nat := 3072

/-- Constant `BGE_DIMENSIONS` from the source. -/
def BGE_DIMENSIONS : Nat := 1024

/-- Constant `NOMIC_DIMENSIONS` from the source. -/
def NOMIC_DIMENSIONS : Nat := 768

/-- Constant `FALLBACK_DIMENSIONS` from the source. -/
def FALLBACK_DIMENSIONS : Nat := 100

/-- Constant `VECTOR_MAX_DIMENSIONS` from the source. -/
def VECTOR_MAX_DIMENSIONS : Nat := 2000

/-- Constant `HALFVEC_MAX_DIMENSIONS` from the source. -/
def HALFVEC_MAX_DIMENSIONS : Nat := 4000

/-- Model of `getDimensionsForModel` (vectorSearchService.ts lines
203-252): case-insensitive substring matches tried in source order,
then the exact fallback names, then the default. -/
def getDimensionsForModel (model : String) : Nat :=
  let lowerCaseModelName := toLowerCase model
  if stringIncludes lowerCaseModelName "bge-m3" then BGE_DIMENSIONS
  else if stringIncludes lowerCaseModelName "nomic-embed-text" then NOMIC_DIMENSIONS
  else if stringIncludes lowerCaseModelName "text-embedding-3-large" then
    EMBEDDING_DIMENSIONS_LARGE
  else if stringIncludes lowerCaseModelName "text-embedding-3-small" then
    EMBEDDING_DIMENSIONS_SMALL
  else if lowerCaseModelName == "fallback" || lowerCaseModelName == "simple-hash" then
    FALLBACK_DIMENSIONS
  else EMBEDDING_DIMENSIONS_SMALL

/-- One `CREATE INDEX` attempt made by `createVectorIndex`. -/
inductive IndexAttempt
  | hnsw
  | ivfflat
  | hnswHalfvec
deriving DecidableEq

/-- Oracle telling which of the three possible `CREATE INDEX` statements
would succeed against the database, and the error message each would
produce on failure. -/
structure IndexEnv where
  hnswOk : Bool
  ivfflatOk : Bool
  halfvecOk : Bool
  hnswErr : String
  ivfErr : String
  halfvecErr : String
deriving DecidableEq

/-- The `{success, indexType, message}` record returned by
`createVectorIndex`. -/
structure IndexResult where
  success : Bool
  indexType : Option String
  message : String
deriving DecidableEq

/-- Model of `createVectorIndex` (vectorSearchService.ts lines 59-200).
Returns the result record together with the ordered list of index
creation attempts issued.  The unconditional `DROP INDEX IF EXISTS`
(whose errors are ignored) precedes the decision tree and is not an
index-creation attempt, so it is not tracked in the attempt list. -/
def createVectorIndex (env : IndexEnv) (dimensions : Nat) :
    IndexResult × List IndexAttempt :=
  if dimensions ≤ VECTOR_MAX_DIMENSIONS then
    if env.hnswOk then
      (⟨true, some "hnsw",
        "HNSW index created successfully for " ++ toString dimensions ++ " dimensions"⟩,
       [.hnsw])
    else if env.ivfflatOk then
      (⟨true, some "ivfflat",
        "IVFFlat index created successfully for " ++ toString dimensions ++ " dimensions"⟩,
       [.hnsw, .ivfflat])
    else
      (⟨false, none, "No index created: " ++ env.hnswErr⟩, [.hnsw, .ivfflat])
  else if dimensions ≤ HALFVEC_MAX_DIMENSIONS then
    if env.halfvecOk then
      (⟨true, some "hnsw-halfvec",
        "HNSW index (halfvec) created successfully for " ++ toString dimensions ++
          " dimensions"⟩,
       [.hnswHalfvec])
    else
      (⟨false, none,
        "No vector index created for " ++ toString dimensions ++ " dimensions. " ++
          env.halfvecErr⟩,
       [.hnswHalfvec])
  else
    (⟨false, none,
      "Dimensions (" ++ toString dimensions ++ ") exceed maximum indexable limit (" ++
        toString HALFVEC_MAX_DIMENSIONS ++ ")"⟩,
     [])

/-- Model of the JS regex split `text.split(/\\s+/)`: separators are
maximal whitespace runs; an empty piece is produced before a leading
separator and after a trailing one, and the empty string splits to one
empty piece.  A whitespace character followed by more whitespace is
skipped so that a run acts as one separator. -/
def splitWsAux (l : List Char) (acc : List Char) : List String :=
  match l with
  | [] => [String.mk acc]
  | c :: rest =>
    if c.isWhitespace then
      match rest with
      | [] => [String.mk acc, ""]
      | c2 :: rest2 =>
        if c2.isWhitespace then splitWsAux (c2 :: rest2) acc
        else String.mk acc :: splitWsAux (c2 :: rest2) []
    else
      splitWsAux rest (acc ++ [c])

/-- Model of JS `s.split(/\\s+/)`. -/
def splitWs (s : String) : List String :=
  splitWsAux s.data []

/-- The fixed domain vocabulary of `generateFallbackEmbedding`. -/
def vocabulary : List String :=
  ["search", "find", "get", "fetch", "retrieve", "query", "map", "location",
   "weather", "file", "directory", "email", "message", "send", "create", "update",
   "delete", "browser", "web", "page", "click", "navigate", "screenshot",
   "automation", "database", "table", "record", "insert", "select", "schema",
   "data", "image", "photo", "video", "media", "upload", "download", "convert",
   "text", "document", "pdf", "excel", "word", "format", "parse", "api", "rest",
   "http", "request", "response", "json", "xml", "time", "date", "calendar",
   "schedule", "reminder", "clock", "math", "calculate", "number", "sum",
   "average", "statistics", "user", "account", "login", "auth", "permission",
   "role"]

/-- JS `vocabulary.indexOf(word)`: index of the first occurrence, or
none when absent (JS returns -1 there, which the source guards out with
`index >= 0`). -/
def jsIndexOf (l : List String) (w : String) : Option Nat :=
  l.findIdx? (fun x => x == w)

/-- Character-code hash of a word:
`word.split(unit).reduce((a, b) => a + b.charCodeAt(0), 0)`. -/
def wordHash (w : String) : Nat :=
  w.data.foldl (fun a c => a + c.toNat) 0

/-- One `vector[i] += x` update on a dense JS array. -/
def listBump (v : List ℚ) (i : Nat) (x : ℚ) : List ℚ :=
  v.set i (v.getD i 0 + x)

/-- Body of the `words.forEach` loop of `generateFallbackEmbedding`:
a vocabulary-membership bump of weight 1 (guarded by the bounds check
of the source) followed by a hash bump of weight 0.1. -/
def fallbackWordStep (vec : List ℚ) (word : String) : List ℚ :=
  let vec1 :=
    match jsIndexOf vocabulary word with
    | some index => if index < vec.length then listBump vec index 1 else vec
    | none => vec
  listBump vec1 (wordHash word % vec1.length) (1 / 10)

/-- The accumulation phase of `generateFallbackEmbedding`: fold the word
step over the lower-cased whitespace-split words of the input, starting
from the all-zero vector of width `FALLBACK_DIMENSIONS`. -/
def fallbackVectorRaw (text : String) : List ℚ :=
  let words := splitWs (toLowerCase text)
  words.foldl fallbackWordStep (List.replicate FALLBACK_DIMENSIONS 0)

/-- Squared magnitude `vector.reduce((sum, val) => sum + val * val, 0)`. -/
def magnitudeSq (v : List ℚ) : ℚ :=
  v.foldl (fun s val => s + val * val) 0

/-- Model of `generateFallbackEmbedding` (vectorSearchService.ts lines
582-677): accumulate, then L2-normalize when the magnitude is positive.
`Math.sqrt` is modelled by `Rat.sqrt`; positivity of the magnitude
agrees with positivity of its square in both readings. -/
def generateFallbackEmbedding (text : String) : List ℚ :=
  let vector := fallbackVectorRaw text
  let magnitude := Rat.sqrt (magnitudeSq vector)
  if 0 < magnitude then vector.map (fun val => val / magnitude) else vector

/-- Validation `validateEmbeddingArray`: the candidate is a non-empty
array (the non-array case of the dynamically typed source is outside
this typed model). -/
def validateEmbeddingArray (embedding : List ℚ) : Bool :=
  !(embedding.isEmpty)

/-- Validation `validateEmbeddingNotZero`: not every element is 0. -/
def validateEmbeddingNotZero (embedding : List ℚ) : Bool :=
  !(embedding.all (fun val => val == 0))

/-- Validation `validateEmbeddingRange` with the default band
[-1.1, 1.1]. -/
def validateEmbeddingRange (embedding : List ℚ) : Bool :=
  embedding.all (fun val => decide (-(11 / 10 : ℚ) ≤ val) && decide (val ≤ (11 / 10 : ℚ)))

/-- Validation `validateEmbeddingDimensions`: the candidate length must
equal the width looked up for the configured model name. -/
def validateEmbeddingDimensions (embedding : List ℚ) (modelName : String) : Bool :=
  embedding.length == getDimensionsForModel modelName

/-- Model of `generateEmbedding` (vectorSearchService.ts lines 516-575).
The outcome of `callEmbeddingAPI` (a raw vector, or `none` for any
transport failure) is a parameter; the surrounding `try`/`catch` makes
the function total, falling back to `generateFallbackEmbedding` on the
original text whenever the transport fails or any validation check
rejects the raw vector, in the source order of the checks. -/
def generateEmbedding (embeddingModel : String) (transport : Option (List ℚ))
    (text : String) : List ℚ :=
  match transport with
  | none => generateFallbackEmbedding text
  | some embedding =>
    if !(validateEmbeddingArray embedding) then generateFallbackEmbedding text
    else if !(validateEmbeddingNotZero embedding) then generateFallbackEmbedding text
    else if !(validateEmbeddingRange embedding) then generateFallbackEmbedding text
    else if !(validateEmbeddingDimensions embedding embeddingModel) then
      generateFallbackEmbedding text
    else embedding

/-- The C2 hypothesis "the input contains at least one alphanumeric
token": some character of the input is alphanumeric. -/
def hasAlphanumericToken (text : String) : Bool :=
  text.data.any (fun c => c.isAlphanum)

/-- One stored row of the `vector_embeddings` table, as far as the
reconciliation logic observes it: its natural key, its `dimensions`
column and its `model` column. -/
structure VRecord where
  key : String
  dimensions : Nat
  model : String
deriving DecidableEq

/-- Database state seen by the reconciliation logic: the declared width
of the vector column (`0` models the absence of a dimension constraint,
reported as `atttypmod = -1`) and the stored rows. -/
structure DBState where
  schemaWidth : Nat
  records : List VRecord
deriving DecidableEq

/-- One externally visible database write issued by the save path. -/
inductive DbOp
  | deleteMismatched (width : Nat)
  | alterColumn (width : Nat)
  | createIdx (width : Nat)
  | saveTool (key : String) (text : String)
deriving DecidableEq

/-- Recognizer for the per-tool persistence operation. -/
def isSaveToolOp : DbOp → Bool
  | .saveTool _ _ => true
  | _ => false

/-- The `GROUP BY dimensions, model ORDER BY count DESC LIMIT 5` record
probe: the `dimensions` value of a (dimensions, model) group of maximal
row count (0 when the table is empty).  SQL leaves the order of
equal-count groups unspecified; this model breaks ties by first
occurrence. -/
def mostCommonDims (records : List VRecord) : Nat :=
  let groups := (records.map (fun r => (r.dimensions, r.model))).dedup
  match groups with
  | [] => 0
  | g :: gs =>
    (gs.foldl
      (fun best x =>
        if records.countP (fun r => (r.dimensions, r.model) == x) >
            records.countP (fun r => (r.dimensions, r.model) == best) then x
        else best)
      g).1

/-- The `currentDimensions` detection of `checkDatabaseVectorDimensions`
(lines 1220-1300): the declared schema width when it is constrained,
otherwise the most common width among stored records, otherwise 0. -/
def detectCurrentDimensions (st : DBState) : Nat :=
  if st.schemaWidth ≠ 0 then st.schemaWidth
  else mostCommonDims st.records

/-- Oracle for the destructive reconciliation statements: whether the
`DELETE` of mismatched rows and the `ALTER TABLE ... TYPE vector(n)`
statement succeed, and the index-creation oracle. -/
structure ReconcileEnv where
  deleteOk : Bool
  alterOk : Bool
  indexEnv : IndexEnv

/-- Model of `clearMismatchedVectorData` (lines 1387-1407): delete every
stored row whose `dimensions` differs from the expected width; a failed
`DELETE` is re-thrown. -/
def clearMismatchedVectorData (env : ReconcileEnv) (st : DBState)
    (expectedDimensions : Nat) : DBState × List DbOp × Option String :=
  if env.deleteOk then
    ({ st with records := st.records.filter (fun r => r.dimensions == expectedDimensions) },
     [.deleteMismatched expectedDimensions], none)
  else
    (st, [], some "delete of mismatched embeddings failed")

/-- Model of `checkDatabaseVectorDimensions` (lines 1205-1370).  The
returned triple is the final database state, the trace of issued
destructive operations, and the error surfaced to the caller (`none`
when the function returns normally; the source wraps any thrown message
in "Vector dimension check failed: ...").  On the migration path the
three steps run in source order: clear mismatched rows, alter the
column type, rebuild the index; a failed index rebuild is only warned
about (lines 1328-1333), never thrown. -/
def checkDatabaseVectorDimensions (env : ReconcileEnv) (st : DBState)
    (dimensionsNeeded : Nat) : DBState × List DbOp × Option String :=
  if dimensionsNeeded == 0 then
    (st, [],
     some ("Vector dimension check failed: Invalid dimension value: " ++
       toString dimensionsNeeded ++ ". Must be a positive integer."))
  else
    let currentDimensions := detectCurrentDimensions st
    if 0 < currentDimensions ∧ currentDimensions ≠ dimensionsNeeded then
      match clearMismatchedVectorData env st dimensionsNeeded with
      | (st1, ops1, some e) =>
        (st1, ops1, some ("Vector dimension check failed: " ++ e))
      | (st1, ops1, none) =>
        if env.alterOk then
          let st2 := { st1 with schemaWidth := dimensionsNeeded }
          let _indexResult := createVectorIndex env.indexEnv dimensionsNeeded
          (st2, ops1 ++ [.alterColumn dimensionsNeeded, .createIdx dimensionsNeeded],
           none)
        else
          (st1, ops1,
           some "Vector dimension check failed: alter of the vector column failed")
    else if currentDimensions == 0 then
      if env.alterOk then
        let st2 := { st with schemaWidth := dimensionsNeeded }
        let _indexResult := createVectorIndex env.indexEnv dimensionsNeeded
        (st2, [.alterColumn dimensionsNeeded, .createIdx dimensionsNeeded], none)
      else
        (st, [],
         some "Vector dimension check failed: alter of the vector column failed")
    else
      (st, [], none)

/-- A tool descriptor as the save path consumes it: name, description,
the top-level keys of its input schema and the keys of
`inputSchema.properties` (both empty when the schema is absent). -/
structure Tool where
  name : String
  description : String
  schemaTopLevelKeys : List String
  schemaPropertyKeys : List String
deriving DecidableEq

/-- The searchable text built for one tool (lines 782-797): name,
description, top-level schema keys except "type"/"properties", then
property-name keys; empty pieces dropped, joined by single spaces. -/
def searchableText (tool : Tool) : String :=
  String.intercalate " "
    (([tool.name, tool.description] ++
      tool.schemaTopLevelKeys.filter (fun key => key ≠ "type" && key ≠ "properties") ++
      tool.schemaPropertyKeys).filter (fun s => s ≠ ""))

/-- Environment of one save batch: the live feature toggle, the outcome
of the probe embedding (`none` when generating it threw, otherwise the
probe vector length), the reconciliation oracle, the embedding produced
for a given searchable text, whether the repository write for a given
key succeeds, and the configured model name stored with each row. -/
structure SaveEnv where
  enabled : Bool
  probe : Option Nat
  recEnv : ReconcileEnv
  embedOf : String → List ℚ
  saveOk : String → Bool
  embeddingModel : String

/-- Whether one tool passes the per-tool checks of the save loop and its
repository write succeeds (so that `saveEmbedding` records the row). -/
def toolPersisted (env : SaveEnv) (serverName : String) (dims : Nat)
    (tool : Tool) : Bool :=
  let embedding := env.embedOf (searchableText tool)
  !(embedding.length == 0) && embedding.length == dims &&
    env.saveOk (serverName ++ ":" ++ tool.name)

/-- One iteration of the per-tool loop (lines 779-863), threading the
database state, the operation trace and the success/failure counters.
A tool whose embedding is empty or of the wrong width is skipped with a
logged failure; a failed repository write is also only counted. -/
def processTool (env : SaveEnv) (serverName : String) (dims : Nat)
    (acc : DBState × List DbOp × Nat × Nat) (tool : Tool) :
    DBState × List DbOp × Nat × Nat :=
  let st := acc.1
  let ops := acc.2.1
  let successCount := acc.2.2.1
  let failureCount := acc.2.2.2
  let embedding := env.embedOf (searchableText tool)
  if embedding.length == 0 then (st, ops, successCount, failureCount + 1)
  else if embedding.length ≠ dims then (st, ops, successCount, failureCount + 1)
  else
    let key := serverName ++ ":" ++ tool.name
    if env.saveOk key then
      ({ st with records :=
          st.records.filter (fun r => r.key ≠ key) ++
            [⟨key, embedding.length, env.embeddingModel⟩] },
       ops ++ [.saveTool key (searchableText tool)],
       successCount + 1, failureCount)
    else (st, ops, successCount, failureCount + 1)

/-- Model of `saveToolsAsVectorEmbeddings` (lines 703-876).  The final
`Option String` component is the error caught and only logged by the
outermost `catch` (lines 869-875): the source function always returns
normally to its caller, so the model is a total function and a `some`
there records that an internal error was swallowed, not that one was
raised. -/
def saveToolsAsVectorEmbeddings (env : SaveEnv) (st : DBState) (serverName : String)
    (tools : List Tool) : DBState × List DbOp × Nat × Nat × Option String :=
  if tools.length == 0 then (st, [], 0, 0, none)
  else if !env.enabled then (st, [], 0, 0, none)
  else
    match env.probe with
    | none =>
      (st, [], 0, 0, some "Cannot determine embedding dimensions from API")
    | some actualDimensions =>
      if actualDimensions == 0 then
        (st, [], 0, 0,
         some ("API produced invalid embedding dimensions: " ++
           toString actualDimensions ++
           ". Cannot determine correct vector size for the database."))
      else
        match checkDatabaseVectorDimensions env.recEnv st actualDimensions with
        | (st1, ops1, some e) => (st1, ops1, 0, 0, some e)
        | (st1, ops1, none) =>
          let folded := tools.foldl (processTool env serverName actualDimensions)
            (st1, [], 0, 0)
          (folded.1, ops1 ++ folded.2.1, folded.2.2.1, folded.2.2.2, none)


/-- Metadata of a stored row as a search row carries it: absent
(null/undefined), present but not a string, or a string. -/
inductive MetaVal
  | absent
  | nonString
  | str (s : String)
deriving DecidableEq

/-- The fields of a successfully parsed metadata object that the result
transformation reads; `none` models an absent field. -/
structure ParsedMeta where
  serverName : Option String
  toolName : Option String
  description : Option String
  hasInputSchema : Bool
deriving DecidableEq

/-- JS truthiness of an optional string field: present and non-empty. -/
def truthyField : Option String → Bool
  | some s => !(s == "")
  | none => false

/-- One raw similarity row as the transformations consume it. -/
structure Row where
  metadata : MetaVal
  text_content : String
  similarity : ℚ
deriving DecidableEq

/-- One transformed record returned by `searchToolsByVector`
(`inputSchema` is modelled by its presence). -/
structure SearchResult where
  serverName : String
  toolName : String
  description : String
  hasInputSchema : Bool
  similarity : ℚ
  searchableText : String
deriving DecidableEq

/-- The regex match `textContent.match(/^(\S+)/)` of the heuristic
extraction: the leading run of non-whitespace characters, empty when
the text is empty or starts with whitespace (no match). -/
def leadingToken (textContent : String) : String :=
  String.mk (textContent.data.takeWhile (fun c => !c.isWhitespace))

/-- The regex match `toolName.match(/^([^_]+)_/)`: the non-empty prefix
before the first underscore provided an underscore follows it, else the
server name falls back to "unknown". -/
def serverFromToolName (toolName : String) : String :=
  let pre := toolName.data.takeWhile (fun c => !(c == '_'))
  if pre.length ≠ 0 ∧ pre.length < toolName.data.length then String.mk pre
  else "unknown"

/-- The replacement `textContent.replace(/^\S+\s*/, "")`: drop the
leading non-whitespace run and any whitespace after it; when the text
is empty or starts with whitespace the regex does not match and the
text is unchanged. -/
def dropLeadingTokenWs (textContent : String) : String :=
  match textContent.data with
  | [] => textContent
  | c :: _ =>
    if c.isWhitespace then textContent
    else
      String.mk ((textContent.data.dropWhile (fun ch => !ch.isWhitespace)).dropWhile
        (fun ch => ch.isWhitespace))

/-- Model of JS `s.trim()`. -/
def jsTrim (s : String) : String :=
  String.mk (((s.data.dropWhile Char.isWhitespace).reverse.dropWhile
    Char.isWhitespace).reverse)

/-- The heuristic fallback extraction of `searchToolsByVector`
(lines 955-967), producing (serverName, toolName, description) from
`text_content`. -/
def heuristicExtract (textContent : String) : String × String × String :=
  let toolName := leadingToken textContent
  let serverName := serverFromToolName toolName
  let description := jsTrim (dropLeadingTokenWs textContent)
  (serverName, toolName, description)

/-- The search record built by the heuristic branch. -/
def heuristicResult (row : Row) : SearchResult :=
  { serverName := (heuristicExtract row.text_content).1
    toolName := (heuristicExtract row.text_content).2.1
    description := (heuristicExtract row.text_content).2.2
    hasInputSchema := false
    similarity := row.similarity
    searchableText := row.text_content }

/-- The per-row transformation of `searchToolsByVector` (lines
931-977), parameterized by the `JSON.parse` oracle (`none` models a
parse exception, caught by the source).  Structured metadata is used
when it is a truthy string parsing to an object with truthy
`serverName` and `toolName`; otherwise the heuristic extraction runs. -/
def transformRow (parse : String → Option ParsedMeta) (row : Row) : SearchResult :=
  match row.metadata with
  | .str s =>
    if !(s == "") then
      match parse s with
      | some parsedMetadata =>
        if truthyField parsedMetadata.serverName &&
            truthyField parsedMetadata.toolName then
          { serverName := parsedMetadata.serverName.getD ""
            toolName := parsedMetadata.toolName.getD ""
            description := parsedMetadata.description.getD ""
            hasInputSchema := parsedMetadata.hasInputSchema
            similarity := row.similarity
            searchableText := row.text_content }
        else heuristicResult row
      | none => heuristicResult row
    else heuristicResult row
  | _ => heuristicResult row

/-- The server-name filter shared verbatim by `searchToolsByVector`
(lines 916-928) and `getAllVectorizedTools` (lines 1040-1052): when a
non-empty list is given, keep only rows whose metadata is a string that
parses to an object whose `serverName` is contained in the list. -/
def filterByServerNames (parse : String → Option ParsedMeta)
    (serverNames : Option (List String)) (rows : List Row) : List Row :=
  match serverNames with
  | none => rows
  | some l =>
    if l.length ≠ 0 then
      rows.filter (fun row =>
        match row.metadata with
        | .str s =>
          match parse s with
          | some pm =>
            match pm.serverName with
            | some sn => l.contains sn
            | none => false
          | none => false
        | _ => false)
    else rows

/-- Model of `searchToolsByVector` (lines 885-982).  The repository
outcome (rows, or an internal error) is a parameter; any internal error
is caught and the empty list returned (lines 978-981). -/
def searchToolsByVector (parse : String → Option ParsedMeta)
    (repoResult : Except String (List Row))
    (serverNames : Option (List String)) : List SearchResult :=
  match repoResult with
  | .error _ => []
  | .ok results =>
    (filterByServerNames parse serverNames results).map (transformRow parse)

/-- One record returned by `getAllVectorizedTools`; the structured
branch passes the parsed fields through unchecked, so each may be
absent at runtime. -/
structure ListedTool where
  serverName : Option String
  toolName : Option String
  description : Option String
  hasInputSchema : Bool
deriving DecidableEq

/-- The per-row transformation of `getAllVectorizedTools` (lines
1054-1081): parsed metadata is passed through; a non-string or
unparseable metadata yields the fixed "unknown" stub (no text
heuristic here). -/
def getAllTransformRow (parse : String → Option ParsedMeta) (row : Row) : ListedTool :=
  match row.metadata with
  | .str s =>
    match parse s with
    | some pm => ⟨pm.serverName, pm.toolName, pm.description, pm.hasInputSchema⟩
    | none => ⟨some "unknown", some "unknown", some "", false⟩
  | _ => ⟨some "unknown", some "unknown", some "", false⟩

/-- Model of `getAllVectorizedTools` (lines 988-1086).  The width
detection before the query is internal and its failure locally caught;
a repository or configuration error is the `.error` case, answered with
the empty list (lines 1082-1085). -/
def getAllVectorizedTools (parse : String → Option ParsedMeta)
    (repoResult : Except String (List Row))
    (serverNames : Option (List String)) : List ListedTool :=
  match repoResult with
  | .error _ => []
  | .ok results =>
    (filterByServerNames parse serverNames results).map (getAllTransformRow parse)

/-- Environment of `removeServerToolEmbeddings`: connection state,
configuration presence, and the outcome of initialization plus the
delete call. -/
structure RemoveEnv where
  dbConnected : Bool
  dbUrlConfigured : Bool
  deleteResult : Except String Nat

/-- Model of `removeServerToolEmbeddings` (lines 1092-1143): cleanup is
skipped when the database is unconfigured and unconnected; every
failure is caught and only logged (lines 1130-1142), so the function
always returns normally.  The result is the removed count on success
and the logged error message on failure. -/
def removeServerToolEmbeddings (env : RemoveEnv) (serverName : String) :
    Option Nat × Option String :=
  if !env.dbConnected && !env.dbUrlConfigured then (none, none)
  else
    match env.deleteResult with
    | .ok removedCount => (some removedCount, none)
    | .error e =>
      (none,
       some ("Error while removing embeddings for server " ++ serverName ++ ": " ++ e))

/-- Definition following the words of claim C8: "the first
whitespace-delimited token" of a text — the first non-empty piece of
the whitespace split. -/
def firstWhitespaceDelimitedToken (textContent : String) : String :=
  (((splitWs textContent).filter (fun t => !(t == ""))).headD "")

/-- Helper: an occurrence in the right part survives prepending. -/
theorem isInfixList_append_left (pat b : List Char) (h : isInfixList pat b = true) :
    ∀ a : List Char, isInfixList pat (a ++ b) = true := by
  intro a
  induction a with
  | nil => simpa using h
  | cons x xs ih =>
    show isInfixList pat (x :: (xs ++ b)) = true
    rw [isInfixList]
    simp [ih]

/-- Helper: character-list decomposition of the over-limit message. -/
theorem msg_toList_split (d : Nat) :
    ("Dimensions (" ++ toString d ++ ") exceed maximum indexable limit (" ++
      toString HALFVEC_MAX_DIMENSIONS ++ ")").toList =
    "Dimensions (".toList ++ ((toString d).toList ++
      (") exceed maximum indexable limit (".toList ++
        ((toString HALFVEC_MAX_DIMENSIONS).toList ++ ")".toList))) := by
  simp [String.toList, String.data_append, List.append_assoc]

/-- C6: for every model name, the model-to-width lookup is the
deterministic case-insensitive substring match with first-match-wins
priority described in the spec: "bge-m3" → 1024, then
"nomic-embed-text" → 768, then "text-embedding-3-large" → 3072, then
"text-embedding-3-small" → 1536; the exact (lower-cased) names
"fallback" and "simple-hash" → 100; anything else → 1536. -/
theorem C6_model_width_lookup (model : String) :
    (stringIncludes (toLowerCase model) "bge-m3" = true →
      getDimensionsForModel model = 1024) ∧
    (stringIncludes (toLowerCase model) "bge-m3" = false →
      stringIncludes (toLowerCase model) "nomic-embed-text" = true →
      getDimensionsForModel model = 768) ∧
    (stringIncludes (toLowerCase model) "bge-m3" = false →
      stringIncludes (toLowerCase model) "nomic-embed-text" = false →
      stringIncludes (toLowerCase model) "text-embedding-3-large" = true →
      getDimensionsForModel model = 3072) ∧
    (stringIncludes (toLowerCase model) "bge-m3" = false →
      stringIncludes (toLowerCase model) "nomic-embed-text" = false →
      stringIncludes (toLowerCase model) "text-embedding-3-large" = false →
      stringIncludes (toLowerCase model) "text-embedding-3-small" = true →
      getDimensionsForModel model = 1536) ∧
    (stringIncludes (toLowerCase model) "bge-m3" = false →
      stringIncludes (toLowerCase model) "nomic-embed-text" = false →
      stringIncludes (toLowerCase model) "text-embedding-3-large" = false →
      stringIncludes (toLowerCase model) "text-embedding-3-small" = false →
      (toLowerCase model = "fallback" ∨ toLowerCase model = "simple-hash") →
      getDimensionsForModel model = 100) ∧
    (stringIncludes (toLowerCase model) "bge-m3" = false →
      stringIncludes (toLowerCase model) "nomic-embed-text" = false →
      stringIncludes (toLowerCase model) "text-embedding-3-large" = false →
      stringIncludes (toLowerCase model) "text-embedding-3-small" = false →
      toLowerCase model ≠ "fallback" → toLowerCase model ≠ "simple-hash" →
      getDimensionsForModel model = 1536) := by
  unfold getDimensionsForModel
  refine ⟨fun h1 => ?_, fun h1 h2 => ?_, fun h1 h2 h3 => ?_,
    fun h1 h2 h3 h4 => ?_, fun h1 h2 h3 h4 h5 => ?_, fun h1 h2 h3 h4 h5 h6 => ?_⟩ <;>
    simp_all [BGE_DIMENSIONS, NOMIC_DIMENSIONS, EMBEDDING_DIMENSIONS_LARGE,
      EMBEDDING_DIMENSIONS_SMALL, FALLBACK_DIMENSIONS]

/-- Witness for C6: the lookup evaluated at concrete model names. -/
theorem C6_model_width_lookup_witness :
    getDimensionsForModel "My-BGE-M3-Q5_K_M.gguf" = 1024 ∧
    getDimensionsForModel "nomic-embed-text-v1.5" = 768 ∧
    getDimensionsForModel "text-embedding-3-large" = 3072 ∧
    getDimensionsForModel "Fallback" = 100 ∧
    getDimensionsForModel "totally-unknown-model" = 1536 :=
  ⟨(C6_model_width_lookup "My-BGE-M3-Q5_K_M.gguf").1 (by decide),
   (C6_model_width_lookup "nomic-embed-text-v1.5").2.1 (by decide) (by decide),
   (C6_model_width_lookup "text-embedding-3-large").2.2.1 (by decide) (by decide)
     (by decide),
   (C6_model_width_lookup "Fallback").2.2.2.2.1 (by decide) (by decide) (by decide)
     (by decide) (Or.inl (by decide)),
   (C6_model_width_lookup "totally-unknown-model").2.2.2.2.2 (by decide) (by decide)
     (by decide) (by decide) (by decide) (by decide)⟩

/-- C5: the index-strategy decision tree of `createVectorIndex`:
width ≤ 2000 attempts HNSW then (only on HNSW failure) IVFFlat,
reporting kind "hnsw" or "ivfflat" on success and `success = false` with
kind null when both fail; width 2001..4000 attempts only the halfvec
HNSW index (no IVFFlat fallback), reporting "hnsw-halfvec" on success;
width > 4000 fails immediately with kind null, a message naming the
4000-dimension limit, and no index-creation attempt at all. -/
theorem C5_createVectorIndex_decision_tree (env : IndexEnv) (d : Nat) :
    (d ≤ 2000 →
      ((createVectorIndex env d).2.head? = some .hnsw) ∧
      (env.hnswOk = true →
        (createVectorIndex env d).1.success = true ∧
        (createVectorIndex env d).1.indexType = some "hnsw") ∧
      (env.hnswOk = false →
        (createVectorIndex env d).2 = [.hnsw, .ivfflat] ∧
        (env.ivfflatOk = true →
          (createVectorIndex env d).1.success = true ∧
          (createVectorIndex env d).1.indexType = some "ivfflat") ∧
        (env.ivfflatOk = false →
          (createVectorIndex env d).1.success = false ∧
          (createVectorIndex env d).1.indexType = none))) ∧
    (2000 < d → d ≤ 4000 →
      (createVectorIndex env d).2 = [.hnswHalfvec] ∧
      (env.halfvecOk = true →
        (createVectorIndex env d).1.success = true ∧
        (createVectorIndex env d).1.indexType = some "hnsw-halfvec") ∧
      (env.halfvecOk = false →
        (createVectorIndex env d).1.success = false ∧
        (createVectorIndex env d).1.indexType = none)) ∧
    (4000 < d →
      (createVectorIndex env d).1.success = false ∧
      (createVectorIndex env d).1.indexType = none ∧
      (createVectorIndex env d).2 = [] ∧
      stringIncludes (createVectorIndex env d).1.message
        (toString HALFVEC_MAX_DIMENSIONS) = true ∧
      stringIncludes (createVectorIndex env d).1.message
        "exceed maximum indexable limit" = true) := by
  have hmsg : 4000 < d → (createVectorIndex env d).1.message =
      "Dimensions (" ++ toString d ++ ") exceed maximum indexable limit (" ++
        toString HALFVEC_MAX_DIMENSIONS ++ ")" := by
    intro hd
    have h1 : ¬ d ≤ VECTOR_MAX_DIMENSIONS := by
      simp only [VECTOR_MAX_DIMENSIONS]; omega
    have h2 : ¬ d ≤ HALFVEC_MAX_DIMENSIONS := by
      simp only [HALFVEC_MAX_DIMENSIONS]; omega
    simp [createVectorIndex, h1, h2]
  refine ⟨fun hd => ?_, fun hd1 hd2 => ?_, fun hd => ?_⟩
  · have h : d ≤ VECTOR_MAX_DIMENSIONS := by
      simpa [VECTOR_MAX_DIMENSIONS] using hd
    cases hh : env.hnswOk <;> cases hi : env.ivfflatOk <;>
      simp [createVectorIndex, h, hh, hi]
  · have h1 : ¬ d ≤ VECTOR_MAX_DIMENSIONS := by
      simp only [VECTOR_MAX_DIMENSIONS]; omega
    have h2 : d ≤ HALFVEC_MAX_DIMENSIONS := by
      simpa [HALFVEC_MAX_DIMENSIONS] using hd2
    cases hv : env.halfvecOk <;> simp [createVectorIndex, h1, h2, hv]
  · have h1 : ¬ d ≤ VECTOR_MAX_DIMENSIONS := by
      simp only [VECTOR_MAX_DIMENSIONS]; omega
    have h2 : ¬ d ≤ HALFVEC_MAX_DIMENSIONS := by
      simp only [HALFVEC_MAX_DIMENSIONS]; omega
    refine ⟨by simp [createVectorIndex, h1, h2], by simp [createVectorIndex, h1, h2],
      by simp [createVectorIndex, h1, h2], ?_, ?_⟩
    · rw [hmsg hd]
      unfold stringIncludes
      rw [msg_toList_split]
      exact isInfixList_append_left _ _
        (isInfixList_append_left _ _ (isInfixList_append_left _ _ (by decide) _) _) _
    · rw [hmsg hd]
      unfold stringIncludes
      rw [msg_toList_split]
      exact isInfixList_append_left _ _
        (isInfixList_append_left _ _ (by decide) _) _

/-- Witness for C5: concrete evaluations in every width band. -/
theorem C5_createVectorIndex_decision_tree_witness :
    ((createVectorIndex ⟨true, true, true, "e1", "e2", "e3"⟩ 2000).1.indexType =
      some "hnsw") ∧
    ((createVectorIndex ⟨false, true, true, "e1", "e2", "e3"⟩ 1).1.indexType =
      some "ivfflat") ∧
    ((createVectorIndex ⟨true, true, true, "e1", "e2", "e3"⟩ 3072).1.indexType =
      some "hnsw-halfvec") ∧
    ((createVectorIndex ⟨true, true, true, "e1", "e2", "e3"⟩ 4001).1.success = false) ∧
    ((createVectorIndex ⟨true, true, true, "e1", "e2", "e3"⟩ 4001).2 = []) ∧
    (stringIncludes
      (createVectorIndex ⟨true, true, true, "e1", "e2", "e3"⟩ 4001).1.message
      "exceed maximum indexable limit" = true) :=
  ⟨(((C5_createVectorIndex_decision_tree ⟨true, true, true, "e1", "e2", "e3"⟩
      2000).1 (by decide)).2.1 (by decide)).2,
   ((((C5_createVectorIndex_decision_tree ⟨false, true, true, "e1", "e2", "e3"⟩
      1).1 (by decide)).2.2 (by decide)).2.1 (by decide)).2,
   (((C5_createVectorIndex_decision_tree ⟨true, true, true, "e1", "e2", "e3"⟩
      3072).2.1 (by decide) (by decide)).2.1 (by decide)).2,
   ((C5_createVectorIndex_decision_tree ⟨true, true, true, "e1", "e2", "e3"⟩
      4001).2.2 (by decide)).1,
   ((C5_createVectorIndex_decision_tree ⟨true, true, true, "e1", "e2", "e3"⟩
      4001).2.2 (by decide)).2.2.1,
   ((C5_createVectorIndex_decision_tree ⟨true, true, true, "e1", "e2", "e3"⟩
      4001).2.2 (by decide)).2.2.2.2⟩

/-- Helper: `listBump` preserves length. -/
theorem listBump_length (v : List ℚ) (i : Nat) (x : ℚ) :
    (listBump v i x).length = v.length := by
  simp [listBump]

/-- Helper: a bump at a valid index adds exactly its weight to the sum. -/
theorem listBump_sum (v : List ℚ) (i : Nat) (x : ℚ) (h : i < v.length) :
    (listBump v i x).sum = v.sum + x := by
  induction v generalizing i with
  | nil => simp at h
  | cons a as ih =>
    cases i with
    | zero =>
      simp [listBump]
      ring
    | succ n =>
      have hn : n < as.length := by simpa using h
      have hstep : listBump (a :: as) (n + 1) x = a :: listBump as n x := by
        simp [listBump]
      rw [hstep, List.sum_cons, List.sum_cons, ih n hn]
      ring

/-- Helper: `fallbackWordStep` preserves length. -/
theorem fallbackWordStep_length (v : List ℚ) (w : String) :
    (fallbackWordStep v w).length = v.length := by
  unfold fallbackWordStep
  cases hj : jsIndexOf vocabulary w with
  | none => simp [listBump_length]
  | some index =>
    by_cases hi : index < v.length <;> simp [hi, listBump_length]

/-- Helper: one word step increases the sum by at least 0.1 when the
vector is non-empty. -/
theorem fallbackWordStep_sum (v : List ℚ) (w : String) (hv : 0 < v.length) :
    v.sum + 1 / 10 ≤ (fallbackWordStep v w).sum := by
  unfold fallbackWordStep
  cases hj : jsIndexOf vocabulary w with
  | none =>
    simp only []
    rw [listBump_sum _ _ _ (Nat.mod_lt _ hv)]
  | some index =>
    simp only []
    by_cases hi : index < v.length
    · have h1 : (listBump v index 1).length = v.length := listBump_length v index 1
      have h2 : wordHash w % (listBump v index 1).length <
          (listBump v index 1).length := by
        rw [h1]; exact Nat.mod_lt _ hv
      simp only [hi, if_true]
      rw [listBump_sum _ _ _ h2, listBump_sum _ _ _ hi]
      linarith
    · simp only [hi, if_false]
      rw [listBump_sum _ _ _ (Nat.mod_lt _ hv)]

/-- Helper: folding word steps preserves the length. -/
theorem foldl_fallbackWordStep_length (ws : List String) (v : List ℚ) :
    (ws.foldl fallbackWordStep v).length = v.length := by
  induction ws generalizing v with
  | nil => rfl
  | cons w ws ih =>
    simp only [List.foldl_cons]
    rw [ih, fallbackWordStep_length]

/-- Helper: folding word steps never decreases the sum. -/
theorem foldl_fallbackWordStep_sum (ws : List String) (v : List ℚ) (hv : 0 < v.length) :
    v.sum ≤ (ws.foldl fallbackWordStep v).sum := by
  induction ws generalizing v with
  | nil => simp
  | cons w ws ih =>
    have h1 := fallbackWordStep_sum v w hv
    have h2 : 0 < (fallbackWordStep v w).length := by
      rw [fallbackWordStep_length]; exact hv
    have h3 := ih (fallbackWordStep v w) h2
    simp only [List.foldl_cons]
    linarith

/-- Helper: `splitWsAux` never returns the empty list (fuel form). -/
theorem splitWsAux_ne_nil_aux (n : Nat) :
    ∀ l acc : List Char, l.length ≤ n → splitWsAux l acc ≠ [] := by
  induction n with
  | zero =>
    intro l acc hl
    have : l = [] := List.eq_nil_of_length_eq_zero (Nat.le_zero.mp hl)
    subst this
    rw [splitWsAux.eq_def]
    simp
  | succ n ih =>
    intro l acc hl
    match l with
    | [] =>
      rw [splitWsAux.eq_def]
      simp
    | c :: rest =>
      rw [splitWsAux.eq_def]
      by_cases hc : c.isWhitespace
      · simp only [hc, if_true]
        match rest with
        | [] => simp
        | c2 :: rest2 =>
          by_cases hc2 : c2.isWhitespace
          · simp only [hc2, if_true]
            exact ih (c2 :: rest2) acc (by simpa using Nat.succ_le_succ_iff.mp hl)
          · simp [hc2]
      · simp only [hc, if_false]
        exact ih rest (acc ++ [c]) (by simpa using Nat.succ_le_succ_iff.mp hl)

/-- Helper: `splitWs` never returns the empty list. -/
theorem splitWs_ne_nil (s : String) : splitWs s ≠ [] :=
  splitWsAux_ne_nil_aux s.data.length s.data [] le_rfl

/-- Helper: the raw fallback vector has width `FALLBACK_DIMENSIONS`. -/
theorem fallbackVectorRaw_length (text : String) :
    (fallbackVectorRaw text).length = FALLBACK_DIMENSIONS := by
  unfold fallbackVectorRaw
  rw [foldl_fallbackWordStep_length]
  simp

/-- Helper: the raw fallback vector has positive sum. -/
theorem fallbackVectorRaw_sum_pos (text : String) :
    0 < (fallbackVectorRaw text).sum := by
  unfold fallbackVectorRaw
  obtain ⟨w, ws, hw⟩ := List.exists_cons_of_ne_nil (splitWs_ne_nil (toLowerCase text))
  rw [hw]
  simp only [List.foldl_cons]
  have h0 : (List.replicate FALLBACK_DIMENSIONS (0 : ℚ)).length = FALLBACK_DIMENSIONS := by
    simp
  have hpos : 0 < (List.replicate FALLBACK_DIMENSIONS (0 : ℚ)).length := by
    rw [h0]; simp [FALLBACK_DIMENSIONS]
  have h1 := fallbackWordStep_sum (List.replicate FALLBACK_DIMENSIONS 0) w hpos
  have h2 := foldl_fallbackWordStep_sum ws
    (fallbackWordStep (List.replicate FALLBACK_DIMENSIONS 0) w)
    (by rw [fallbackWordStep_length]; exact hpos)
  have h3 : (List.replicate FALLBACK_DIMENSIONS (0 : ℚ)).sum = 0 := by simp
  linarith

/-- Helper: a list of rationals with positive sum has a positive element. -/
theorem exists_pos_of_sum_pos (v : List ℚ) (h : 0 < v.sum) : ∃ x ∈ v, 0 < x := by
  induction v with
  | nil => simp at h
  | cons a as ih =>
    rcases lt_or_le 0 a with ha | ha
    · exact ⟨a, List.mem_cons_self a as, ha⟩
    · have hs : 0 < as.sum := by
        rw [List.sum_cons] at h; linarith
      obtain ⟨x, hx, hpos⟩ := ih hs
      exact ⟨x, List.mem_cons_of_mem a hx, hpos⟩

/-- Helper: `magnitudeSq` as a mapped sum. -/
theorem magnitudeSq_eq_sum_map (v : List ℚ) :
    magnitudeSq v = (v.map (fun x => x * x)).sum := by
  unfold magnitudeSq
  suffices h : ∀ c : ℚ, v.foldl (fun s val => s + val * val) c =
      c + (v.map (fun x => x * x)).sum by
    simpa using h 0
  induction v with
  | nil => intro c; simp
  | cons a as ih =>
    intro c
    simp only [List.foldl_cons, List.map_cons, List.sum_cons, ih]
    ring

/-- Helper: positive sum forces positive squared magnitude. -/
theorem magnitudeSq_pos_of_sum_pos (v : List ℚ) (h : 0 < v.sum) : 0 < magnitudeSq v := by
  obtain ⟨x, hx, hpos⟩ := exists_pos_of_sum_pos v h
  rw [magnitudeSq_eq_sum_map]
  have h1 : x * x ∈ v.map (fun x => x * x) := List.mem_map_of_mem _ hx
  have h2 : ∀ y ∈ v.map (fun x => x * x), (0 : ℚ) ≤ y := by
    intro y hy
    obtain ⟨z, _, rfl⟩ := List.mem_map.mp hy
    exact mul_self_nonneg z
  have h3 := List.single_le_sum h2 _ h1
  nlinarith

/-- Helper: `Rat.sqrt` is positive on positive rationals. -/
theorem ratSqrt_pos {q : ℚ} (hq : 0 < q) : 0 < Rat.sqrt q := by
  have hnum : 0 < q.num := Rat.num_pos.mpr hq
  have h1 : 0 < Int.sqrt q.num := by
    unfold Int.sqrt
    have hn : 0 < q.num.toNat := by omega
    exact_mod_cast Nat.sqrt_pos.mpr hn
  have h2 : 0 < Nat.sqrt q.den := Nat.sqrt_pos.mpr q.den_pos
  unfold Rat.sqrt
  rw [Rat.mkRat_eq_divInt, Rat.divInt_eq_div]
  exact div_pos (by exact_mod_cast h1) (by exact_mod_cast h2)

/-- Helper: the fallback embedding has width `FALLBACK_DIMENSIONS`. -/
theorem generateFallbackEmbedding_length (text : String) :
    (generateFallbackEmbedding text).length = FALLBACK_DIMENSIONS := by
  unfold generateFallbackEmbedding
  by_cases hm : 0 < Rat.sqrt (magnitudeSq (fallbackVectorRaw text)) <;>
    simp [hm, fallbackVectorRaw_length]

/-- Helper: the fallback embedding is never all-zero. -/
theorem generateFallbackEmbedding_not_zero (text : String) :
    validateEmbeddingNotZero (generateFallbackEmbedding text) = true := by
  have hsum := fallbackVectorRaw_sum_pos text
  have hmag := magnitudeSq_pos_of_sum_pos _ hsum
  have hsqrt := ratSqrt_pos hmag
  obtain ⟨x, hx, hxpos⟩ := exists_pos_of_sum_pos _ hsum
  unfold generateFallbackEmbedding
  simp only [hsqrt, if_true]
  unfold validateEmbeddingNotZero
  rw [Bool.not_eq_true']
  rw [List.all_eq_false]
  refine ⟨x / Rat.sqrt (magnitudeSq (fallbackVectorRaw text)),
    List.mem_map_of_mem _ hx, ?_⟩
  have hne : x / Rat.sqrt (magnitudeSq (fallbackVectorRaw text)) ≠ 0 :=
    ne_of_gt (div_pos hxpos hsqrt)
  simpa using hne

/-- C2: for every input text and every transport outcome,
`generateEmbedding` never returns an empty vector; when the input has
at least one alphanumeric token its output is never the all-zero
vector; and whenever the transport returns an all-zero vector the
result is the (non-zero) fallback embedding for the text, not that
zero vector.  Totality of the model function reflects that the source
never throws (its body is wrapped in `try`/`catch` with a fallback). -/
theorem C2_generateEmbedding_nonempty_nonzero (embeddingModel text : String)
    (transport : Option (List ℚ)) :
    (generateEmbedding embeddingModel transport text).length ≠ 0 ∧
    (hasAlphanumericToken text = true →
      validateEmbeddingNotZero (generateEmbedding embeddingModel transport text) =
        true) ∧
    (∀ v, transport = some v → v.all (fun val => val == 0) = true →
      generateEmbedding embeddingModel transport text =
        generateFallbackEmbedding text) := by
  have hlen : (generateFallbackEmbedding text).length ≠ 0 := by
    rw [generateFallbackEmbedding_length]
    simp [FALLBACK_DIMENSIONS]
  have hnz := generateFallbackEmbedding_not_zero text
  cases transport with
  | none =>
    refine ⟨by simpa [generateEmbedding] using hlen,
      fun _ => by simpa [generateEmbedding] using hnz, ?_⟩
    intro v hv
    cases hv
  | some embedding =>
    by_cases h1 : validateEmbeddingArray embedding = true
    · by_cases h2 : validateEmbeddingNotZero embedding = true
      · by_cases h3 : validateEmbeddingRange embedding = true
        · by_cases h4 : validateEmbeddingDimensions embedding embeddingModel = true
          · have hres : generateEmbedding embeddingModel (some embedding) text =
                embedding := by
              simp [generateEmbedding, h1, h2, h3, h4]
            refine ⟨?_, ?_, ?_⟩
            · rw [hres]
              unfold validateEmbeddingArray at h1
              simpa [List.isEmpty_iff_length_eq_zero] using h1
            · intro _
              rw [hres]; exact h2
            · intro v hv hz
              injection hv with hv
              subst hv
              unfold validateEmbeddingNotZero at h2
              rw [hz] at h2
              simp at h2
          · have hres : generateEmbedding embeddingModel (some embedding) text =
                generateFallbackEmbedding text := by
              simp [generateEmbedding, h1, h2, h3, h4]
            exact ⟨by rw [hres]; exact hlen, fun _ => by rw [hres]; exact hnz,
              fun v hv hz => hres⟩
        · have hres : generateEmbedding embeddingModel (some embedding) text =
              generateFallbackEmbedding text := by
            simp [generateEmbedding, h1, h2, h3]
          exact ⟨by rw [hres]; exact hlen, fun _ => by rw [hres]; exact hnz,
            fun v hv hz => hres⟩
      · have hres : generateEmbedding embeddingModel (some embedding) text =
            generateFallbackEmbedding text := by
          simp [generateEmbedding, h1, h2]
        exact ⟨by rw [hres]; exact hlen, fun _ => by rw [hres]; exact hnz,
          fun v hv hz => hres⟩
    · have hres : generateEmbedding embeddingModel (some embedding) text =
          generateFallbackEmbedding text := by
        simp [generateEmbedding, h1]
      exact ⟨by rw [hres]; exact hlen, fun _ => by rw [hres]; exact hnz,
        fun v hv hz => hres⟩

/-- Witness for C2: a concrete all-zero transport vector with a text
containing an alphanumeric token, and a text with none at all for the
unconditional never-empty conjunct. -/
theorem C2_generateEmbedding_nonempty_nonzero_witness :
    (generateEmbedding "text-embedding-3-small" (some (List.replicate 5 0))
      "hello world").length ≠ 0 ∧
    hasAlphanumericToken "hello world" = true ∧
    validateEmbeddingNotZero (generateEmbedding "text-embedding-3-small"
      (some (List.replicate 5 0)) "hello world") = true ∧
    (generateEmbedding "text-embedding-3-small" none "!!!").length ≠ 0 :=
  ⟨(C2_generateEmbedding_nonempty_nonzero "text-embedding-3-small" "hello world"
     (some (List.replicate 5 0))).1,
   by decide,
   (C2_generateEmbedding_nonempty_nonzero "text-embedding-3-small" "hello world"
     (some (List.replicate 5 0))).2.1 (by decide),
   (C2_generateEmbedding_nonempty_nonzero "text-embedding-3-small" "!!!" none).1⟩

/-- Helper: the trace effect of one per-tool iteration. -/
theorem processTool_ops (env : SaveEnv) (serverName : String) (dims : Nat)
    (acc : DBState × List DbOp × Nat × Nat) (tool : Tool) :
    (processTool env serverName dims acc tool).2.1 =
      if toolPersisted env serverName dims tool = true then
        acc.2.1 ++ [DbOp.saveTool (serverName ++ ":" ++ tool.name) (searchableText tool)]
      else acc.2.1 := by
  unfold processTool toolPersisted
  by_cases h0 : (env.embedOf (searchableText tool)).length == 0
  · simp [h0]
  · by_cases h1 : (env.embedOf (searchableText tool)).length ≠ dims
    · simp [h0, h1]
    · by_cases h2 : env.saveOk (serverName ++ ":" ++ tool.name) <;>
        [skip; simp_all] <;>
      simp_all <;>
      by_cases hdim : dims = 0 <;> simp [hdim]

/-- Helper: membership in the trace of the per-tool fold. -/
theorem processTool_fold_ops_mem (env : SaveEnv) (serverName : String) (dims : Nat)
    (tools : List Tool) :
    ∀ (acc : DBState × List DbOp × Nat × Nat) (op : DbOp),
      op ∈ (tools.foldl (processTool env serverName dims) acc).2.1 ↔
        op ∈ acc.2.1 ∨ ∃ t ∈ tools, toolPersisted env serverName dims t = true ∧
          op = DbOp.saveTool (serverName ++ ":" ++ t.name) (searchableText t) := by
  induction tools with
  | nil => simp
  | cons t ts ih =>
    intro acc op
    rw [List.foldl_cons, ih]
    by_cases hp : toolPersisted env serverName dims t = true
    · rw [processTool_ops]
      simp only [hp, if_true, List.mem_append, List.mem_cons, List.mem_singleton,
        List.not_mem_nil, or_false]
      constructor
      · rintro ((h | h) | h)
        · exact Or.inl h
        · exact Or.inr ⟨t, Or.inl rfl, hp, h⟩
        · obtain ⟨u, hu, hup, hop⟩ := h
          exact Or.inr ⟨u, Or.inr hu, hup, hop⟩
      · rintro (h | ⟨u, (rfl | hu), hup, hop⟩)
        · exact Or.inl (Or.inl h)
        · exact Or.inl (Or.inr hop)
        · exact Or.inr ⟨u, hu, hup, hop⟩
    · rw [processTool_ops]
      simp only [hp, if_false, List.mem_cons]
      constructor
      · rintro (h | h)
        · exact Or.inl h
        · obtain ⟨u, hu, hup, hop⟩ := h
          exact Or.inr ⟨u, Or.inr hu, hup, hop⟩
      · rintro (h | ⟨u, (rfl | hu), hup, hop⟩)
        · exact Or.inl h
        · exact absurd hup hp
        · exact Or.inr ⟨u, hu, hup, hop⟩

/-- Helper: the length of the trace of the per-tool fold counts exactly
the persisted tools. -/
theorem processTool_fold_ops_length (env : SaveEnv) (serverName : String) (dims : Nat)
    (tools : List Tool) :
    ∀ acc : DBState × List DbOp × Nat × Nat,
      (tools.foldl (processTool env serverName dims) acc).2.1.length =
        acc.2.1.length + tools.countP (toolPersisted env serverName dims) := by
  induction tools with
  | nil => simp
  | cons t ts ih =>
    intro acc
    rw [List.foldl_cons, ih, processTool_ops, List.countP_cons]
    by_cases hp : toolPersisted env serverName dims t = true <;> simp [hp] <;> omega

/-- Helper: on the migration path with both destructive statements
succeeding, reconciliation purges mismatched rows, sets the schema
width and rebuilds the index, in that order. -/
theorem checkDatabaseVectorDimensions_migration (env : ReconcileEnv) (st : DBState)
    (d : Nat) (hd : d ≠ 0) (hpos : 0 < detectCurrentDimensions st)
    (hne : detectCurrentDimensions st ≠ d) (hdel : env.deleteOk = true)
    (halter : env.alterOk = true) :
    checkDatabaseVectorDimensions env st d =
      ({ schemaWidth := d,
         records := st.records.filter (fun r => r.dimensions == d) },
       [.deleteMismatched d, .alterColumn d, .createIdx d], none) := by
  unfold checkDatabaseVectorDimensions clearMismatchedVectorData
  have h0 : (d == 0) = false := by simpa using hd
  simp only [h0, Bool.false_eq_true, if_false]
  rw [if_pos ⟨hpos, hne⟩, if_pos hdel]
  simp [halter]

/-- Helper: the possible traces of one reconciliation pass. -/
theorem checkDatabaseVectorDimensions_ops_cases (env : ReconcileEnv) (st : DBState)
    (d : Nat) :
    (checkDatabaseVectorDimensions env st d).2.1 = [] ∨
    (checkDatabaseVectorDimensions env st d).2.1 = [.deleteMismatched d] ∨
    (checkDatabaseVectorDimensions env st d).2.1 =
      [.deleteMismatched d, .alterColumn d, .createIdx d] ∨
    (checkDatabaseVectorDimensions env st d).2.1 = [.alterColumn d, .createIdx d] := by
  unfold checkDatabaseVectorDimensions clearMismatchedVectorData
  by_cases h0 : (d == 0) = true
  · simp [h0]
  · simp only [h0, Bool.false_eq_true, if_false]
    by_cases h1 : 0 < detectCurrentDimensions st ∧ detectCurrentDimensions st ≠ d
    · rw [if_pos h1]
      by_cases h2 : env.deleteOk
      · rw [if_pos h2]
        by_cases h3 : env.alterOk
        · simp [h3]
        · simp [h3]
      · rw [if_neg h2]; simp
    · rw [if_neg h1]
      by_cases h2 : (detectCurrentDimensions st == 0) = true
      · simp only [h2, if_true]
        by_cases h3 : env.alterOk
        · rw [if_pos h3]; simp
        · rw [if_neg h3]; simp
      · simp [h2]

/-- Helper: reconciliation never issues a per-tool persistence write. -/
theorem checkDatabaseVectorDimensions_ops_no_save (env : ReconcileEnv) (st : DBState)
    (d : Nat) :
    ∀ op ∈ (checkDatabaseVectorDimensions env st d).2.1, isSaveToolOp op = false := by
  intro op hop
  rcases checkDatabaseVectorDimensions_ops_cases env st d with h | h | h | h <;>
      rw [h] at hop
  · simp at hop
  · simp only [List.mem_singleton] at hop
    subst hop; rfl
  · simp only [List.mem_cons, List.mem_singleton, List.not_mem_nil, or_false] at hop
    rcases hop with rfl | rfl | rfl <;> rfl
  · simp only [List.mem_cons, List.mem_singleton, List.not_mem_nil, or_false] at hop
    rcases hop with rfl | rfl <;> rfl

/-- Helper: the shape of a save batch whose probe and reconciliation
both succeed. -/
theorem saveTools_unfold_ok (env : SaveEnv) (st : DBState) (serverName : String)
    (tools : List Tool) (d : Nat) (st1 : DBState) (ops1 : List DbOp)
    (htools : tools ≠ []) (hen : env.enabled = true) (hp : env.probe = some d)
    (hd : d ≠ 0)
    (hchk : checkDatabaseVectorDimensions env.recEnv st d = (st1, ops1, none)) :
    saveToolsAsVectorEmbeddings env st serverName tools =
      ((tools.foldl (processTool env serverName d) (st1, [], 0, 0)).1,
       ops1 ++ (tools.foldl (processTool env serverName d) (st1, [], 0, 0)).2.1,
       (tools.foldl (processTool env serverName d) (st1, [], 0, 0)).2.2.1,
       (tools.foldl (processTool env serverName d) (st1, [], 0, 0)).2.2.2,
       none) := by
  unfold saveToolsAsVectorEmbeddings
  have hlen : (tools.length == 0) = false := by
    simpa using fun hh => htools (List.length_eq_zero.mp hh)
  have hd0 : (d == 0) = false := by simpa using hd
  simp only [hlen, Bool.false_eq_true, if_false, hen, Bool.not_true, hp, hd0, hchk]

/-- C1: in a save batch whose detected current width is positive and
differs from the probe-determined required width (and whose destructive
statements succeed), reconciliation deletes all rows of differing
width, alters the declared column width and recreates the index, in
that order and before any tool of the batch is persisted; afterwards
every remaining stored row has `dimensions` equal to the required width
and the declared schema width equals the required width. -/
theorem C1_reconciliation_purge_alter_reindex (env : SaveEnv) (st : DBState)
    (serverName : String) (tools : List Tool) (d : Nat)
    (htools : tools ≠ []) (hen : env.enabled = true) (hp : env.probe = some d)
    (hd : d ≠ 0) (hpos : 0 < detectCurrentDimensions st)
    (hne : detectCurrentDimensions st ≠ d)
    (hdel : env.recEnv.deleteOk = true) (halter : env.recEnv.alterOk = true) :
    (checkDatabaseVectorDimensions env.recEnv st d).2.1 =
      [.deleteMismatched d, .alterColumn d, .createIdx d] ∧
    (checkDatabaseVectorDimensions env.recEnv st d).2.2 = none ∧
    (∀ r ∈ (checkDatabaseVectorDimensions env.recEnv st d).1.records,
      r.dimensions = d) ∧
    (checkDatabaseVectorDimensions env.recEnv st d).1.schemaWidth = d ∧
    (∃ toolOps,
      (saveToolsAsVectorEmbeddings env st serverName tools).2.1 =
        [.deleteMismatched d, .alterColumn d, .createIdx d] ++ toolOps ∧
      ∀ op ∈ toolOps, isSaveToolOp op = true) := by
  have hchk := checkDatabaseVectorDimensions_migration env.recEnv st d hd hpos hne
    hdel halter
  refine ⟨by rw [hchk], by rw [hchk], ?_, by rw [hchk], ?_⟩
  · intro r hr
    rw [hchk] at hr
    simp only [List.mem_filter] at hr
    simpa using hr.2
  · set st1 : DBState :=
      { schemaWidth := d, records := st.records.filter (fun r => r.dimensions == d) }
      with hst1
    have hsave := saveTools_unfold_ok env st serverName tools d st1
      [.deleteMismatched d, .alterColumn d, .createIdx d] htools hen hp hd hchk
    refine ⟨(tools.foldl (processTool env serverName d) (st1, [], 0, 0)).2.1, ?_, ?_⟩
    · rw [hsave]
    · intro op hop
      rw [processTool_fold_ops_mem] at hop
      rcases hop with hop | ⟨t, _, _, rfl⟩
      · simp at hop
      · rfl

/-- Witness for C1: a concrete batch at current width 1024 migrating to
width 1536. -/
theorem C1_reconciliation_purge_alter_reindex_witness :
    (checkDatabaseVectorDimensions ⟨true, true, ⟨true, true, true, "", "", ""⟩⟩
      ⟨1024, [⟨"srv:old", 1024, "bge-m3"⟩]⟩ 1536).2.1 =
        [.deleteMismatched 1536, .alterColumn 1536, .createIdx 1536] ∧
    (∀ r ∈ (checkDatabaseVectorDimensions ⟨true, true, ⟨true, true, true, "", "", ""⟩⟩
      ⟨1024, [⟨"srv:old", 1024, "bge-m3"⟩]⟩ 1536).1.records, r.dimensions = 1536) ∧
    (checkDatabaseVectorDimensions ⟨true, true, ⟨true, true, true, "", "", ""⟩⟩
      ⟨1024, [⟨"srv:old", 1024, "bge-m3"⟩]⟩ 1536).1.schemaWidth = 1536 :=
  ⟨(C1_reconciliation_purge_alter_reindex
      ⟨true, some 1536, ⟨true, true, ⟨true, true, true, "", "", ""⟩⟩,
        fun _ => [], fun _ => true, "m"⟩
      ⟨1024, [⟨"srv:old", 1024, "bge-m3"⟩]⟩ "srv" [⟨"t", "d", [], []⟩] 1536
      (by simp) rfl rfl (by decide) (by decide) (by decide) rfl rfl).1,
   (C1_reconciliation_purge_alter_reindex
      ⟨true, some 1536, ⟨true, true, ⟨true, true, true, "", "", ""⟩⟩,
        fun _ => [], fun _ => true, "m"⟩
      ⟨1024, [⟨"srv:old", 1024, "bge-m3"⟩]⟩ "srv" [⟨"t", "d", [], []⟩] 1536
      (by simp) rfl rfl (by decide) (by decide) (by decide) rfl rfl).2.2.1,
   (C1_reconciliation_purge_alter_reindex
      ⟨true, some 1536, ⟨true, true, ⟨true, true, true, "", "", ""⟩⟩,
        fun _ => [], fun _ => true, "m"⟩
      ⟨1024, [⟨"srv:old", 1024, "bge-m3"⟩]⟩ "srv" [⟨"t", "d", [], []⟩] 1536
      (by simp) rfl rfl (by decide) (by decide) (by decide) rfl rfl).2.2.2.1⟩

/-- Helper: the shape of a save batch whose reconciliation pass throws:
the error is caught by the outermost handler and only recorded, and no
tool is processed. -/
theorem saveTools_unfold_err (env : SaveEnv) (st : DBState) (serverName : String)
    (tools : List Tool) (d : Nat) (st1 : DBState) (ops1 : List DbOp) (e : String)
    (htools : tools ≠ []) (hen : env.enabled = true) (hp : env.probe = some d)
    (hd : d ≠ 0)
    (hchk : checkDatabaseVectorDimensions env.recEnv st d = (st1, ops1, some e)) :
    saveToolsAsVectorEmbeddings env st serverName tools = (st1, ops1, 0, 0, some e) := by
  unfold saveToolsAsVectorEmbeddings
  have hlen : (tools.length == 0) = false := by
    simpa using fun hh => htools (List.length_eq_zero.mp hh)
  have hd0 : (d == 0) = false := by simpa using hd
  simp only [hlen, Bool.false_eq_true, if_false, hen, Bool.not_true, hp, hd0, hchk]

/-- Helper: on the migration path with a failing `ALTER TABLE`, the
purge has already run and the alteration error is re-thrown. -/
theorem checkDatabaseVectorDimensions_migration_alter_fail (env : ReconcileEnv)
    (st : DBState) (d : Nat) (hd : d ≠ 0) (hpos : 0 < detectCurrentDimensions st)
    (hne : detectCurrentDimensions st ≠ d) (hdel : env.deleteOk = true)
    (halter : env.alterOk = false) :
    checkDatabaseVectorDimensions env st d =
      ({ st with records := st.records.filter (fun r => r.dimensions == d) },
       [.deleteMismatched d],
       some "Vector dimension check failed: alter of the vector column failed") := by
  unfold checkDatabaseVectorDimensions clearMismatchedVectorData
  have h0 : (d == 0) = false := by simpa using hd
  simp only [h0, Bool.false_eq_true, if_false]
  rw [if_pos ⟨hpos, hne⟩, if_pos hdel]
  simp [halter]

/-- C7: within a save batch whose probe and reconciliation succeed, any
tool whose generated embedding is empty or whose length differs from
the probe-determined batch width is skipped — its persistence write is
never issued — while the batch completes without raising and still
persists exactly the tools that pass the checks. -/
theorem C7_bad_tool_skipped (env : SaveEnv) (st : DBState) (serverName : String)
    (tools : List Tool) (d : Nat) (st1 : DBState) (ops1 : List DbOp) (tool : Tool)
    (htools : tools ≠ []) (hen : env.enabled = true) (hp : env.probe = some d)
    (hd : d ≠ 0)
    (hchk : checkDatabaseVectorDimensions env.recEnv st d = (st1, ops1, none))
    (hmem : tool ∈ tools)
    (hbad : (env.embedOf (searchableText tool)).length = 0 ∨
      (env.embedOf (searchableText tool)).length ≠ d) :
    (saveToolsAsVectorEmbeddings env st serverName tools).2.2.2.2 = none ∧
    DbOp.saveTool (serverName ++ ":" ++ tool.name) (searchableText tool) ∉
      (saveToolsAsVectorEmbeddings env st serverName tools).2.1 ∧
    ((saveToolsAsVectorEmbeddings env st serverName tools).2.1.filter
      isSaveToolOp).length = tools.countP (toolPersisted env serverName d) := by
  have hsave := saveTools_unfold_ok env st serverName tools d st1 ops1 htools hen hp
    hd hchk
  have hnosave := checkDatabaseVectorDimensions_ops_no_save env.recEnv st d
  rw [hchk] at hnosave
  rw [hsave]
  refine ⟨rfl, ?_, ?_⟩
  · intro hop
    rw [List.mem_append] at hop
    rcases hop with hop | hop
    · have hfalse := hnosave _ hop
      simp [isSaveToolOp] at hfalse
    · rw [processTool_fold_ops_mem] at hop
      rcases hop with hop | ⟨t, _, htp, heq⟩
      · simp at hop
      · have h2 : searchableText tool = searchableText t := by
          injection heq
        unfold toolPersisted at htp
        rw [← h2] at htp
        rcases hbad with hb | hb
        · rw [List.length_eq_zero] at hb
          simp [hb] at htp
        · simp [hb] at htp
  · rw [List.filter_append]
    have h1 : ops1.filter isSaveToolOp = [] := by
      rw [List.filter_eq_nil]
      intro a ha
      simp [hnosave a ha]
    have hallsave :
        (tools.foldl (processTool env serverName d) (st1, [], 0, 0)).2.1.filter
          isSaveToolOp =
        (tools.foldl (processTool env serverName d) (st1, [], 0, 0)).2.1 := by
      rw [List.filter_eq_self]
      intro a ha
      rw [processTool_fold_ops_mem] at ha
      rcases ha with ha | ⟨t, _, _, rfl⟩
      · simp at ha
      · rfl
    rw [h1, List.nil_append, hallsave,
      processTool_fold_ops_length env serverName d tools (st1, [], 0, 0)]
    simp

set_option maxRecDepth 4000 in
/-- Witness for C7: a two-tool batch at probe width 1536 where one tool
produces a 768-wide embedding and is skipped. -/
theorem C7_bad_tool_skipped_witness :
    (saveToolsAsVectorEmbeddings
      ⟨true, some 1536, ⟨true, true, ⟨true, true, true, "", "", ""⟩⟩,
        (fun t => if t == "bad x" then List.replicate 768 (1 / 2)
          else List.replicate 1536 (1 / 2)),
        fun _ => true, "m"⟩
      ⟨1536, []⟩ "srv" [⟨"bad", "x", [], []⟩, ⟨"good", "y", [], []⟩]).2.2.2.2 =
        none ∧
    DbOp.saveTool ("srv" ++ ":" ++ "bad") (searchableText ⟨"bad", "x", [], []⟩) ∉
      (saveToolsAsVectorEmbeddings
        ⟨true, some 1536, ⟨true, true, ⟨true, true, true, "", "", ""⟩⟩,
          (fun t => if t == "bad x" then List.replicate 768 (1 / 2)
            else List.replicate 1536 (1 / 2)),
          fun _ => true, "m"⟩
        ⟨1536, []⟩ "srv" [⟨"bad", "x", [], []⟩, ⟨"good", "y", [], []⟩]).2.1 :=
  ⟨(C7_bad_tool_skipped
      ⟨true, some 1536, ⟨true, true, ⟨true, true, true, "", "", ""⟩⟩,
        (fun t => if t == "bad x" then List.replicate 768 (1 / 2)
          else List.replicate 1536 (1 / 2)),
        fun _ => true, "m"⟩
      ⟨1536, []⟩ "srv" [⟨"bad", "x", [], []⟩, ⟨"good", "y", [], []⟩] 1536
      ⟨1536, []⟩ [] ⟨"bad", "x", [], []⟩ (by simp) rfl rfl (by decide) rfl
      (List.mem_cons_self _ _) (Or.inr (by decide))).1,
   (C7_bad_tool_skipped
      ⟨true, some 1536, ⟨true, true, ⟨true, true, true, "", "", ""⟩⟩,
        (fun t => if t == "bad x" then List.replicate 768 (1 / 2)
          else List.replicate 1536 (1 / 2)),
        fun _ => true, "m"⟩
      ⟨1536, []⟩ "srv" [⟨"bad", "x", [], []⟩, ⟨"good", "y", [], []⟩] 1536
      ⟨1536, []⟩ [] ⟨"bad", "x", [], []⟩ (by simp) rfl rfl (by decide) rfl
      (List.mem_cons_self _ _) (Or.inr (by decide))).2.1⟩

/-- C3 (code bug): when the probe fails — the probe embedding threw, or
yielded width 0 — `saveToolsAsVectorEmbeddings` constructs and throws
the corresponding error (lines 750-761), but the outermost `catch`
(lines 869-875) swallows it after logging, so the function RETURNS
NORMALLY to its caller with nothing persisted: the batch is rejected,
yet the caller cannot see that it did not run, contradicting the
function's own `@throws` documentation (line 701) and the spec. -/
theorem C3_probe_failure_swallowed :
    saveToolsAsVectorEmbeddings
      ⟨true, none, ⟨true, true, ⟨true, true, true, "", "", ""⟩⟩, fun _ => [],
        fun _ => true, "m"⟩
      ⟨1536, []⟩ "srv" [⟨"t1", "d1", [], []⟩] =
      (⟨1536, []⟩, [], 0, 0, some "Cannot determine embedding dimensions from API") ∧
    saveToolsAsVectorEmbeddings
      ⟨true, some 0, ⟨true, true, ⟨true, true, true, "", "", ""⟩⟩, fun _ => [],
        fun _ => true, "m"⟩
      ⟨1536, []⟩ "srv" [⟨"t1", "d1", [], []⟩] =
      (⟨1536, []⟩, [], 0, 0,
       some ("API produced invalid embedding dimensions: 0. " ++
         "Cannot determine correct vector size for the database.")) :=
  ⟨rfl, rfl⟩

/-- C4 counterexample: with stored width 1024 and required width 1536,
when every `CREATE INDEX` statement fails, the index rebuild step of
reconciliation fails, yet `checkDatabaseVectorDimensions` still returns
without error (the failure is absorbed with only a warning, lines
1328-1333) — refuting the claim that an index-rebuild error propagates
to the caller as a hard failure. -/
theorem C4_counterexample_index_failure_absorbed :
    (checkDatabaseVectorDimensions
      ⟨true, true, ⟨false, false, false, "hnsw failed", "ivfflat failed",
        "halfvec failed"⟩⟩
      ⟨1024, [⟨"s:t", 1024, "bge-m3"⟩]⟩ 1536).2.2 = none ∧
    (createVectorIndex
      ⟨false, false, false, "hnsw failed", "ivfflat failed", "halfvec failed"⟩
      1536).1.success = false :=
  ⟨rfl, rfl⟩

/-- C4 (amended): during reconciliation, an error in the column
alteration step propagates to the caller as a hard failure that aborts
the save batch with nothing persisted; a failure of the index rebuild
step, however, is absorbed with only a warning and reconciliation still
succeeds. -/
theorem C4_alter_error_propagates_index_failure_absorbed (env : SaveEnv)
    (st : DBState) (serverName : String) (tools : List Tool) (d : Nat)
    (htools : tools ≠ []) (hen : env.enabled = true) (hp : env.probe = some d)
    (hd : d ≠ 0) (hpos : 0 < detectCurrentDimensions st)
    (hne : detectCurrentDimensions st ≠ d) (hdel : env.recEnv.deleteOk = true) :
    (env.recEnv.alterOk = false →
      (checkDatabaseVectorDimensions env.recEnv st d).2.2 =
        some "Vector dimension check failed: alter of the vector column failed" ∧
      (saveToolsAsVectorEmbeddings env st serverName tools).2.2.2.2 =
        some "Vector dimension check failed: alter of the vector column failed" ∧
      ∀ op ∈ (saveToolsAsVectorEmbeddings env st serverName tools).2.1,
        isSaveToolOp op = false) ∧
    (env.recEnv.alterOk = true →
      (checkDatabaseVectorDimensions env.recEnv st d).2.2 = none) := by
  constructor
  · intro halter
    have hchk := checkDatabaseVectorDimensions_migration_alter_fail env.recEnv st d
      hd hpos hne hdel halter
    have hsave := saveTools_unfold_err env st serverName tools d
      ({ st with records := st.records.filter (fun r => r.dimensions == d) })
      [.deleteMismatched d]
      "Vector dimension check failed: alter of the vector column failed"
      htools hen hp hd hchk
    refine ⟨by rw [hchk], by rw [hsave], ?_⟩
    intro op hop
    rw [hsave] at hop
    simp only [List.mem_singleton] at hop
    subst hop
    rfl
  · intro halter
    have hchk := checkDatabaseVectorDimensions_migration env.recEnv st d hd hpos hne
      hdel halter
    rw [hchk]

/-- Witness for C4 (amended): a concrete failing alteration aborts the
batch, and a concrete succeeding alteration with failing index builds
does not. -/
theorem C4_alter_error_propagates_index_failure_absorbed_witness :
    ((saveToolsAsVectorEmbeddings
      ⟨true, some 1536, ⟨true, false, ⟨true, true, true, "", "", ""⟩⟩, fun _ => [],
        fun _ => true, "m"⟩
      ⟨1024, []⟩ "srv" [⟨"t1", "d1", [], []⟩]).2.2.2.2 =
        some "Vector dimension check failed: alter of the vector column failed") ∧
    ((checkDatabaseVectorDimensions
      ⟨true, true, ⟨false, false, false, "e1", "e2", "e3"⟩⟩
      ⟨1024, []⟩ 1536).2.2 = none) :=
  ⟨((C4_alter_error_propagates_index_failure_absorbed
      ⟨true, some 1536, ⟨true, false, ⟨true, true, true, "", "", ""⟩⟩, fun _ => [],
        fun _ => true, "m"⟩
      ⟨1024, []⟩ "srv" [⟨"t1", "d1", [], []⟩] 1536
      (by simp) rfl rfl (by decide) (by decide) (by decide) rfl).1 rfl).2.1,
   ((C4_alter_error_propagates_index_failure_absorbed
      ⟨true, some 1536, ⟨true, true, ⟨false, false, false, "e1", "e2", "e3"⟩⟩,
        fun _ => [], fun _ => true, "m"⟩
      ⟨1024, []⟩ "srv" [⟨"t1", "d1", [], []⟩] 1536
      (by simp) rfl rfl (by decide) (by decide) (by decide) rfl).2 rfl)⟩

/-- C8 counterexample: on a `text_content` that begins with whitespace
the leading-anchored regex `^(\S+)` does not match, so the extracted
tool name is the empty string and the description keeps the first
token, while the first whitespace-delimited token of the text (the
claim's wording) is "foo". -/
theorem C8_counterexample_leading_whitespace :
    (transformRow (fun _ => none) ⟨.absent, " foo bar", 1⟩).toolName = "" ∧
    firstWhitespaceDelimitedToken " foo bar" = "foo" ∧
    (transformRow (fun _ => none) ⟨.absent, " foo bar", 1⟩).description = "foo bar" ∧
    (transformRow (fun _ => none) ⟨.absent, " foo bar", 1⟩).toolName ≠
      firstWhitespaceDelimitedToken " foo bar" := by
  refine ⟨by decide, by decide, by decide, by decide⟩

/-- C8 (amended): for every row whose metadata is absent, not a string,
empty, unparseable, or parsed without truthy `serverName` and
`toolName`, the transformation still produces a record via the
heuristic extraction — the leading run of non-whitespace characters
(empty when the text begins with whitespace or is empty) is the tool
name; the prefix before the first underscore of that token (when
non-empty and followed by an underscore) is the server name, else
"unknown"; the text minus the leading token and following whitespace,
trimmed, is the description — and never throws (the model is total). -/
theorem C8_heuristic_extraction (parse : String → Option ParsedMeta) (row : Row)
    (hbad : row.metadata = .absent ∨ row.metadata = .nonString ∨
      (∃ s, row.metadata = .str s ∧ (s = "" ∨ parse s = none ∨
        ∃ pm, parse s = some pm ∧
          (truthyField pm.serverName = false ∨ truthyField pm.toolName = false)))) :
    transformRow parse row = heuristicResult row ∧
    (transformRow parse row).toolName = leadingToken row.text_content ∧
    (transformRow parse row).serverName =
      serverFromToolName (leadingToken row.text_content) ∧
    (transformRow parse row).description =
      jsTrim (dropLeadingTokenWs row.text_content) := by
  obtain ⟨md, tc, sim⟩ := row
  have hres : transformRow parse ⟨md, tc, sim⟩ = heuristicResult ⟨md, tc, sim⟩ := by
    rcases hbad with h | h | ⟨s, hs, hcase⟩
    · simp only at h
      subst h
      rfl
    · simp only at h
      subst h
      rfl
    · simp only at hs
      subst hs
      rcases hcase with rfl | hp | ⟨pm, hpm, hfield⟩
      · simp [transformRow]
      · unfold transformRow
        by_cases hse : (s == "") = true
        · simp [hse]
        · simp [hse, hp]
      · unfold transformRow
        by_cases hse : (s == "") = true
        · simp [hse]
        · rcases hfield with hf | hf
          · simp [hse, hpm, hf]
          · simp [hse, hpm, hf]
  exact ⟨hres, by rw [hres]; rfl, by rw [hres]; rfl, by rw [hres]; rfl⟩

/-- Witness for C8 (amended): a row with unparseable string metadata is
transformed heuristically. -/
theorem C8_heuristic_extraction_witness :
    transformRow (fun _ => none) ⟨.str "not json", "server1_tool does things", 1⟩ =
      heuristicResult ⟨.str "not json", "server1_tool does things", 1⟩ ∧
    (transformRow (fun _ => none)
      ⟨.str "not json", "server1_tool does things", 1⟩).serverName =
      serverFromToolName (leadingToken "server1_tool does things") :=
  ⟨(C8_heuristic_extraction (fun _ => none)
      ⟨.str "not json", "server1_tool does things", 1⟩
      (Or.inr (Or.inr ⟨"not json", rfl, Or.inr (Or.inl rfl)⟩))).1,
   (C8_heuristic_extraction (fun _ => none)
      ⟨.str "not json", "server1_tool does things", 1⟩
      (Or.inr (Or.inr ⟨"not json", rfl, Or.inr (Or.inl rfl)⟩))).2.2.1⟩

/-- C9: an internal error makes `searchToolsByVector` and
`getAllVectorizedTools` return the empty list instead of raising, and
`removeServerToolEmbeddings` returns normally after logging a delete
failure (its model is total; the error appears only in the logged
component, or the cleanup was skipped as unconfigured). -/
theorem C9_search_list_remove_errors_recovered
    (parse : String → Option ParsedMeta) (serverNames : Option (List String))
    (e : String) (renv : RemoveEnv) (serverName : String) :
    searchToolsByVector parse (Except.error e) serverNames = [] ∧
    getAllVectorizedTools parse (Except.error e) serverNames = [] ∧
    (∀ e2, renv.deleteResult = Except.error e2 →
      (removeServerToolEmbeddings renv serverName).1 = none ∧
      ((removeServerToolEmbeddings renv serverName).2 = none ∨
        (removeServerToolEmbeddings renv serverName).2 =
          some ("Error while removing embeddings for server " ++ serverName ++
            ": " ++ e2))) := by
  refine ⟨rfl, rfl, ?_⟩
  intro e2 he
  unfold removeServerToolEmbeddings
  by_cases hc : (!renv.dbConnected && !renv.dbUrlConfigured) = true
  · simp [hc]
  · simp [hc, he]

/-- Witness for C9: concrete internal errors. -/
theorem C9_search_list_remove_errors_recovered_witness :
    searchToolsByVector (fun _ => none) (Except.error "boom") none = [] ∧
    getAllVectorizedTools (fun _ => none) (Except.error "boom") (some ["a"]) = [] ∧
    (removeServerToolEmbeddings ⟨true, true, Except.error "db down"⟩ "srv").1 = none :=
  ⟨(C9_search_list_remove_errors_recovered (fun _ => none) none "boom"
      ⟨true, true, Except.error "db down"⟩ "srv").1,
   (C9_search_list_remove_errors_recovered (fun _ => none) (some ["a"]) "boom"
      ⟨true, true, Except.error "db down"⟩ "srv").2.1,
   ((C9_search_list_remove_errors_recovered (fun _ => none) none "boom"
      ⟨true, true, Except.error "db down"⟩ "srv").2.2 "db down" rfl).1⟩

/-- C10 counterexample: under a non-empty server-name filter, a row
whose metadata parses but lacks `toolName` passes the filter (which
checks only `serverName`) and is then transformed by the text_content
heuristic, appearing with serverName "unknown" — refuting the claim
that heuristic extraction runs only when no filter is given. -/
theorem C10_counterexample_heuristic_under_filter :
    searchToolsByVector
      (fun s => if s == "\x7b\"serverName\":\"s1\"\x7d" then
        some ⟨some "s1", none, none, false⟩ else none)
      (Except.ok [⟨.str "\x7b\"serverName\":\"s1\"\x7d", "foo bar", 1⟩])
      (some ["s1"]) =
      [⟨"unknown", "foo", "bar", false, 1, "foo bar"⟩] := by
  decide

/-- C10 (amended): under a non-empty server-name filter every result
row whose metadata is not a string or fails JSON parsing (or lacks a
`serverName` in the filter list) is excluded from the output of both
`searchToolsByVector` and `getAllVectorizedTools`; the heuristic
extraction, however, can still run under filtering for rows whose
metadata parses without truthy `serverName`/`toolName` fields. -/
theorem C10_filter_excludes_unparseable (parse : String → Option ParsedMeta)
    (l : List String) (rows : List Row) (hl : l ≠ []) :
    (∀ row ∈ filterByServerNames parse (some l) rows,
      ∃ s pm sn, row.metadata = .str s ∧ parse s = some pm ∧
        pm.serverName = some sn ∧ l.contains sn = true) ∧
    searchToolsByVector parse (Except.ok rows) (some l) =
      (filterByServerNames parse (some l) rows).map (transformRow parse) ∧
    getAllVectorizedTools parse (Except.ok rows) (some l) =
      (filterByServerNames parse (some l) rows).map (getAllTransformRow parse) := by
  refine ⟨?_, rfl, rfl⟩
  intro row hrow
  have hll : l.length ≠ 0 := fun h => hl (List.length_eq_zero.mp h)
  simp only [filterByServerNames] at hrow
  rw [if_pos hll, List.mem_filter] at hrow
  obtain ⟨hmem, hpred⟩ := hrow
  obtain ⟨md, tc, sim⟩ := row
  cases md with
  | absent => simp at hpred
  | nonString => simp at hpred
  | str s =>
    have hpred2 : (match parse s with
        | some pm =>
          (match pm.serverName with
            | some sn => l.contains sn
            | none => false)
        | none => false) = true := hpred
    rcases hp : parse s with _ | pm
    · rw [hp] at hpred2
      simp at hpred2
    · rw [hp] at hpred2
      have hpred3 : (match pm.serverName with
          | some sn => l.contains sn
          | none => false) = true := hpred2
      rcases hsn : pm.serverName with _ | sn
      · rw [hsn] at hpred3
        simp at hpred3
      · rw [hsn] at hpred3
        exact ⟨s, pm, sn, rfl, hp, hsn, hpred3⟩

/-- Witness for C10 (amended): a non-string-metadata row disappears
from the filtered output. -/
theorem C10_filter_excludes_unparseable_witness :
    searchToolsByVector (fun _ => none) (Except.ok [⟨.nonString, "x", 1⟩])
      (some ["a"]) =
      (filterByServerNames (fun _ => none) (some ["a"]) [⟨.nonString, "x", 1⟩]).map
        (transformRow (fun _ => none)) ∧
    filterByServerNames (fun _ => none) (some ["a"]) [⟨.nonString, "x", 1⟩] = [] :=
  ⟨(C10_filter_excludes_unparseable (fun _ => none) ["a"] [⟨.nonString, "x", 1⟩]
      (by decide)).2.1,
   by decide⟩
